import Mathlib

/-!
Shallow embedding of maddy's `check/command` module (src/check/command/command.go)
and verification of the specification's claims about it.

The embedding translates the Go source directly:
  * `Stage*` constants, the `Check` configuration and the per-transaction `state`
    mirror the Go structures.
  * `state.expandCommand` (placeholder templating) is embedded via an explicit
    scanner `expandChars` for the regular expression `{[a-zA-Z0-9_]+?}` used with
    `ReplaceAllStringFunc`, together with `resolvePlaceholder` embedding the Go
    `switch` over placeholder names.
  * `state.run` / `state.errorRes` are embedded as pure functions of an explicit
    environment (`RunEnv`) describing the external child process's observable
    behaviour: pipe/start failures, the bytes written to standard output, and the
    process-wait outcome.
  * Types from maddy packages that are not part of the given source tree
    (`module.CheckResult`, `check.FailAction`, `exterrors.SMTPError`) and the
    external `textproto.ReadHeader` are modelled from the spec, as marked.
-/

set_option autoImplicit false

namespace Command

/-! ## Stages (command.go lines 28-35) -/

def StageConnection : String := "conn"

def StageSender : String := "sender"

def StageRcpt : String := "rcpt"

def StageBody : String := "body"

/-! ## Data model for types outside the given source tree -/

/-- Modelled from the spec: `exterrors.SMTPError` (package `exterrors` is not in the
given source tree). Fields follow the composite literals in command.go: an SMTP
code, an optional enhanced code, a message, the check name, the optional `Reason`
string, and the `Misc` map, which in this module only ever holds the keys `"cmd"`
(always) and `"exit_code"` (sometimes); the map is therefore embedded as the two
fields `cmd` and `exitCode`. The wrapped Go error value `Err` carries no
information used by any decision and is not modelled. -/
structure SMTPError where
  code : Nat
  enhancedCode : Option (Nat × Nat × Nat)
  message : String
  checkName : String
  reason : Option String
  cmd : String
  exitCode : Option Int
  deriving DecidableEq

/-- Modelled from the spec: `module.CheckResult` (package `module` is not in the
given source tree). "Decision: result of one check invocation — either empty ...
or a classified outcome carrying an error/response payload plus optional header
data contributed by the external program's output." A header block is an ordered
sequence of name/value fields. The Go zero value `module.CheckResult{}` is the
structure with all defaults. -/
structure CheckResult where
  reason : Option SMTPError := none
  reject : Bool := false
  quarantine : Bool := false
  header : List (String × String) := []
  deriving DecidableEq

/-- Modelled from the spec: `check.FailAction` (package `check` is not in the given
source tree). "PolicyAction: tagged variant over {pass-through, reject,
quarantine}". command.go constructs the values `{Reject: true}` and
`{Quarantine: true}`; a value with both fields false is the pass-through action. -/
structure FailAction where
  reject : Bool := false
  quarantine : Bool := false
  deriving DecidableEq

/-- Modelled from the spec: `check.FailAction.Apply`. "pass-through action converts
it back to success; reject action keeps/returns the permanent rejection;
quarantine action marks the message for quarantine instead of rejection while
still signaling the underlying cause." -/
def FailAction.Apply (a : FailAction) (res : CheckResult) : CheckResult :=
  if a.quarantine then { res with quarantine := true, reject := false }
  else if a.reject then { res with reject := true }
  else { res with reason := none, reject := false, quarantine := false }

/-- Connection metadata reachable from `module.MsgMetadata.Conn`, modelled from the
spec: authenticated user, remote address (its textual IP when it is a TCP
address, embedded as `remoteIP = some ip`, and `none` when the remote address is
not TCP), hostname from HELO/EHLO, and the reverse-DNS lookup result.
`rdnsName` embeds the value of `Conn.RDNSName.Get().(string)` — the empty string
when the lookup has no usable result. -/
structure ConnState where
  authUser : String
  remoteIP : Option String
  hostname : String
  rdnsName : String
  deriving DecidableEq

/-- Modelled from the spec: the part of `module.MsgMetadata` read by this module —
the message identifier and the optional connection metadata. -/
structure MsgMetadata where
  id : String
  conn : Option ConnState
  deriving DecidableEq

/-! ## The Check configuration (command.go lines 39-70) -/

/-- `Check` from command.go: instance name, trigger stage, the exit-code-to-action
table (Go `map[int]check.FailAction`, embedded as an association list with
first-match lookup), the command and its argument templates. -/
structure Check where
  instName : String
  stage : String
  actions : List (Int × FailAction)
  cmd : String
  cmdArgs : List String
  deriving DecidableEq

/-- The default code→action table built by `New` (command.go lines 52-59):
`1 → reject, 2 → quarantine`. -/
def defaultActions : List (Int × FailAction) :=
  [(1, { reject := true }), (2, { quarantine := true })]

/-- `New` (command.go lines 49-70): errors when no inline argument is given,
otherwise builds a `Check` with the default action table, the first inline
argument as the command and the rest as argument templates. The trigger stage is
left at its zero value; `Init` later defaults it to `StageBody`. -/
def New (instName : String) (inlineArgs : List String) : Except String Check :=
  match inlineArgs with
  | [] => .error "command: at least one argument is required (command name)"
  | cmd :: args =>
      .ok { instName := instName, stage := "", actions := defaultActions,
            cmd := cmd, cmdArgs := args }

/-! ## Per-transaction state (command.go lines 120-135) -/

/-- The per-transaction `state` from command.go: the shared configuration, the
message metadata, the sender recorded so far and the recipients recorded so
far. -/
structure state where
  c : Check
  msgMeta : MsgMetadata
  mailFrom : String := ""
  rcpts : List String := []
  deriving DecidableEq

/-! ## Placeholder expansion (command.go lines 37, 137-185) -/

/-- The opening brace as a one-character string. -/
def obrace : String := "\x7b"

/-- The closing brace as a one-character string. -/
def cbrace : String := "\x7d"

/-- A character matched by the regexp character class `[a-zA-Z0-9_]`. -/
def isWordChar (c : Char) : Bool :=
  c.isAlpha || c.isDigit || c = '_'

/-- The body of the `ReplaceAllStringFunc` callback (command.go lines 141-180): the
Go `switch` over the matched placeholder; the `default` branch returns the
placeholder unchanged. -/
def resolvePlaceholder (s : state) (address : String) (placeholder : String) : String :=
  if placeholder = "{auth_user}" then
    match s.msgMeta.conn with
    | none => ""
    | some conn => conn.authUser
  else if placeholder = "{source_ip}" then
    match s.msgMeta.conn with
    | none => ""
    | some conn =>
        match conn.remoteIP with
        | none => ""
        | some ip => ip
  else if placeholder = "{source_host}" then
    match s.msgMeta.conn with
    | none => ""
    | some conn => conn.hostname
  else if placeholder = "{source_rdns}" then
    match s.msgMeta.conn with
    | none => ""
    | some conn =>
        -- Lines 166-170 of command.go: both branches return the empty string;
        -- the resolved value `val` is never returned.
        if conn.rdnsName = "" then "" else ""
  else if placeholder = "{msg_id}" then s.msgMeta.id
  else if placeholder = "{sender}" then s.mailFrom
  else if placeholder = "{rcpts}" then String.intercalate "\n" s.rcpts
  else if placeholder = "{address}" then address
  else placeholder

/-- One attempted match of `{[a-zA-Z0-9_]+?}` at a position just after an opening
brace: succeeds when a nonempty run of word characters is followed immediately by
a closing brace, returning the run and the rest of the input. -/
def splitTok (l : List Char) : Option (List Char × List Char) :=
  if l.takeWhile isWordChar ≠ [] ∧ l.dropWhile isWordChar ≠ [] ∧
      (l.dropWhile isWordChar).headI = '}' then
    some (l.takeWhile isWordChar, (l.dropWhile isWordChar).tail)
  else
    none

theorem splitTok_length {l : List Char} {w rest : List Char}
    (h : splitTok l = some (w, rest)) : rest.length < l.length := by
  unfold splitTok at h
  split at h
  · rename_i hcond
    obtain ⟨hw, hr, -⟩ := hcond
    have h2 : rest = (l.dropWhile isWordChar).tail := by
      simp only [Option.some.injEq, Prod.mk.injEq] at h
      exact h.2.symm
    have hle : (l.dropWhile isWordChar).length ≤ l.length :=
      (List.dropWhile_sublist isWordChar).length_le
    subst h2
    rcases hd : l.dropWhile isWordChar with _ | ⟨c, tail⟩
    · exact absurd hd hr
    · rw [hd] at hle
      simp only [List.length_cons] at hle
      simp only [List.tail_cons]
      omega
  · exact absurd h (by simp)

/-- Worker for `expandChars`, structurally recursive on a fuel argument so that
the scan reduces definitionally; `expandChars` supplies the input length as
fuel, which `expandCharsGo_fuel` below shows is always enough. -/
def expandCharsGo (f : String → String) : Nat → List Char → List Char
  | _, [] => []
  | 0, l => l
  | fuel + 1, c :: rest =>
      if c = '{' then
        match splitTok rest with
        | some (w, rest') =>
            (f (obrace ++ String.mk w ++ cbrace)).data ++ expandCharsGo f fuel rest'
        | none => c :: expandCharsGo f fuel rest
      else c :: expandCharsGo f fuel rest

/-- `ReplaceAllStringFunc` with the regexp `{[a-zA-Z0-9_]+?}` (command.go line 37,
line 141), as a scan over the characters: at each opening brace, a nonempty run
of word characters followed by a closing brace is a match and is replaced by
`f` applied to the matched token (braces included); everything else is copied
unchanged, and matches are non-overlapping, left to right. -/
def expandChars (f : String → String) (l : List Char) : List Char :=
  expandCharsGo f l.length l

theorem expandCharsGo_fuel (f : String → String) :
    ∀ n : Nat, ∀ l : List Char, l.length ≤ n →
      expandCharsGo f n l = expandCharsGo f l.length l := by
  intro n
  induction n using Nat.strong_induction_on with
  | _ n ih =>
      intro l hl
      cases l with
      | nil => cases n <;> simp [expandCharsGo]
      | cons c rest =>
          cases n with
          | zero => simp at hl
          | succ m =>
              have hrest : rest.length ≤ m := by
                simp only [List.length_cons] at hl
                omega
              show expandCharsGo f (m + 1) (c :: rest) =
                expandCharsGo f (rest.length + 1) (c :: rest)
              by_cases hc : c = '{'
              · subst hc
                cases hs : splitTok rest with
                | none =>
                    simp only [expandCharsGo, hs, eq_self_iff_true, if_true]
                    rw [ih m (by omega) rest hrest,
                      ih rest.length (by omega) rest (le_refl _)]
                | some p =>
                    obtain ⟨w, rest'⟩ := p
                    have hlt : rest'.length < rest.length := splitTok_length hs
                    simp only [expandCharsGo, hs, eq_self_iff_true, if_true]
                    rw [ih m (by omega) rest' (by omega),
                      ih rest.length (by omega) rest' (by omega)]
              · simp only [expandCharsGo, if_neg hc]
                rw [ih m (by omega) rest hrest,
                  ih rest.length (by omega) rest (le_refl _)]

/-- Expansion of a single argument template (the body of the loop at command.go
lines 140-182). -/
def expandArg (s : state) (address : String) (arg : String) : String :=
  String.mk (expandChars (resolvePlaceholder s address) arg.data)

/-- `state.expandCommand` (command.go lines 137-185): the command name and the
argument vector with every placeholder expanded. -/
def state.expandCommand (s : state) (address : String) : String × List String :=
  (s.c.cmd, s.c.cmdArgs.map (expandArg s address))

/-! ## The external process environment -/

/-- The outcome of `cmd.Wait()` when it returns a non-nil error. Per the
documented semantics of Go's `os/exec` package: when the child process ran and
terminated unsuccessfully, the error is an `*exec.ExitError`; its `ExitCode()`
method yields the exit code for a normal termination and `-1` for a process
terminated by a signal. Any other error (the process could not be waited on) is
not an `*exec.ExitError`. -/
inductive WaitError where
  | exitError (code : Int)
  | other
  deriving DecidableEq

/-- Observable behaviour of one attempted child-process invocation: whether
creating the stdout pipe fails, whether `cmd.Start()` fails, the lines the child
writes to its standard output, and the `cmd.Wait()` outcome (`none` for a nil
error, i.e. the child exited with status 0). -/
structure RunEnv where
  pipeErr : Bool := false
  startErr : Bool := false
  stdout : List String := []
  wait : Option WaitError := none
  deriving DecidableEq

/-- How header parsing of the child's standard output ended. -/
inductive HdrEnd where
  | terminator
  | endOfStream
  | malformed
  deriving DecidableEq

/-- Whitespace trimming on both ends of a character list. -/
def trimChars (l : List Char) : List Char :=
  ((l.dropWhile Char.isWhitespace).reverse.dropWhile Char.isWhitespace).reverse

/-- Modelled from the spec: `textproto.ReadHeader` from the external go-message
package. "The runner parses an RFC-822-style header block (ordered sequence of
name/value header fields terminated by a blank line or end-of-stream) from the
start of standard output ...; a premature end-of-output before a terminator is
tolerated as no headers produced, not an error." A line with no colon is a
malformed header block. Returns the fields read before the scan ended, and how
it ended; `endOfStream` embeds the `io.EOF` error that command.go tolerates. -/
def readHeader : List String → List (String × String) × HdrEnd
  | [] => ([], .endOfStream)
  | line :: rest =>
      if line = "" then ([], .terminator)
      else if line.data.contains ':' then
        let name := String.mk (line.data.takeWhile (· ≠ ':'))
        let value := String.mk (trimChars ((line.data.dropWhile (· ≠ ':')).tail))
        let (flds, e) := readHeader rest
        ((name, value) :: flds, e)
      else
        ([], .malformed)

/-- The model of `exec.Cmd.String()`: the command line rendered as the command
name followed by the space-separated arguments (the path resolution that
`cmd.String()` performs through `LookPath` is not modelled). -/
def cmdString (name : String) (args : List String) : String :=
  String.intercalate " " (name :: args)

/-- The `&exterrors.SMTPError{Code: 450, Message: "Internal server error", ...}`
literal that command.go builds on every infrastructure-failure path, carrying
the command line and, on the unexpected-exit-code path, the exit code and the
`Reason` tag. -/
def internalError (cmdLine : String) (reasonTag : Option String)
    (exitCode : Option Int) : SMTPError :=
  { code := 450, enhancedCode := none, message := "Internal server error",
    checkName := "command", reason := reasonTag, cmd := cmdLine,
    exitCode := exitCode }

/-- The `&exterrors.SMTPError{Code: 550, ...}` literal built for a mapped nonzero
exit code (command.go lines 283-292): the permanent local-policy rejection
carrying the command line and the exit code. -/
def policyError (cmdLine : String) (code : Int) : SMTPError :=
  { code := 550, enhancedCode := some (5, 7, 1),
    message := "Message rejected for due to a local policy",
    checkName := "command", reason := none, cmd := cmdLine,
    exitCode := some code }

/-! ## Outcome classification (command.go lines 250-295) -/

/-- `state.errorRes` (command.go lines 250-295): classify a non-nil `cmd.Wait()`
error. A non-`ExitError` yields the temporary internal-error rejection. An
`ExitError` whose code has no entry in the action table yields the temporary
rejection tagged "unexpected exit code". A mapped code builds the permanent
550 / 5.7.1 local-policy rejection and lets the configured action transform
it. -/
def state.errorRes (s : state) (err : WaitError) (res : CheckResult)
    (cmdLine : String) : CheckResult :=
  match err with
  | .other =>
      { res with reason := some (internalError cmdLine none none), reject := true }
  | .exitError code =>
      match s.c.actions.lookup code with
      | none =>
          { res with
              reason := some (internalError cmdLine (some "unexpected exit code")
                (some code)),
              reject := true }
      | some action =>
          action.Apply { res with reason := some (policyError cmdLine code) }

/-! ## The process runner (command.go lines 187-248) -/

/-- `state.run` (command.go lines 187-248): spawn the command with the given
standard input, parse the leading header block of its standard output, wait for
termination and classify the outcome. Pipe-creation failure, start failure and
a malformed header block each yield the temporary internal-error rejection; a
header read ending in `io.EOF` is tolerated. On a nil `Wait` error the result
is the pass-through decision carrying the parsed header; otherwise the error is
classified by `errorRes`. The `stdin` content is wired to the child and does
not influence the returned decision. -/
def state.run (s : state) (cmdName : String) (args : List String)
    (stdin : List String) (env : RunEnv) : CheckResult :=
  let cmdLine := cmdString cmdName args
  if env.pipeErr then
    { reason := some (internalError cmdLine none none), reject := true }
  else if env.startErr then
    { reason := some (internalError cmdLine none none), reject := true }
  else
    let parsed := readHeader env.stdout
    if parsed.2 = .malformed then
      { reason := some (internalError cmdLine none none), reject := true }
    else
      let res : CheckResult := { header := parsed.1 }
      match env.wait with
      | none => res
      | some err => s.errorRes err res cmdLine

/-! ## The stage methods (command.go lines 297-354) -/

/-- The result of one stage-method call, instrumented with the invocation the
method performed: `invoked = some (name, args)` exactly when the method reached
`s.run`, recording the expanded command it ran; `st` is the transaction state
after the method's bookkeeping. -/
structure StepResult where
  st : state
  res : CheckResult
  invoked : Option (String × List String)
  deriving DecidableEq

/-- `state.CheckConnection` (command.go lines 297-304): no-op unless the trigger
stage is `conn`; otherwise expand with the empty current address and run with
empty standard input. -/
def state.CheckConnection (s : state) (env : RunEnv) : StepResult :=
  if s.c.stage ≠ StageConnection then ⟨s, {}, none⟩
  else
    let (cmdName, cmdArgs) := s.expandCommand ""
    ⟨s, s.run cmdName cmdArgs [] env, some (cmdName, cmdArgs)⟩

/-- `state.CheckSender` (command.go lines 306-315): record the sender address
first, then no-op unless the trigger stage is `sender`; otherwise expand with
that address and run with empty standard input. -/
def state.CheckSender (s : state) (addr : String) (env : RunEnv) : StepResult :=
  let s' := { s with mailFrom := addr }
  if s'.c.stage ≠ StageSender then ⟨s', {}, none⟩
  else
    let (cmdName, cmdArgs) := s'.expandCommand addr
    ⟨s', s'.run cmdName cmdArgs [] env, some (cmdName, cmdArgs)⟩

/-- `state.CheckRcpt` (command.go lines 317-326): append the recipient address to
the recorded recipient sequence first, then no-op unless the trigger stage is
`rcpt`; otherwise expand with that address and run with empty standard input. -/
def state.CheckRcpt (s : state) (addr : String) (env : RunEnv) : StepResult :=
  let s' := { s with rcpts := s.rcpts ++ [addr] }
  if s'.c.stage ≠ StageRcpt then ⟨s', {}, none⟩
  else
    let (cmdName, cmdArgs) := s'.expandCommand addr
    ⟨s', s'.run cmdName cmdArgs [] env, some (cmdName, cmdArgs)⟩

/-- Modelled from the spec: `buffer.Buffer` at the interface boundary — `Open`
either fails or yields the body content as a byte stream. -/
structure Buffer where
  openResult : Except String (List String)

/-- Modelled from the spec: `textproto.WriteHeader` serializing a header block —
one `name: value` line per field followed by the blank terminator line. -/
def serializeHeader (hdr : List (String × String)) : List String :=
  hdr.map (fun fld => fld.1 ++ ": " ++ fld.2) ++ [""]

/-- `state.CheckBody` (command.go lines 328-354): no-op unless the trigger stage
is `body`; otherwise expand with the empty current address, serialize the
message header, open the body. If opening fails, return the temporary
internal-error rejection (whose command line is rendered inline as
`cmdName + " " + strings.Join(cmdArgs, " ")`) without running the command;
otherwise run with the serialized header concatenated with the body content as
standard input. -/
def state.CheckBody (s : state) (hdr : List (String × String)) (body : Buffer)
    (env : RunEnv) : StepResult :=
  if s.c.stage ≠ StageBody then ⟨s, {}, none⟩
  else
    let (cmdName, cmdArgs) := s.expandCommand ""
    match body.openResult with
    | .error _ =>
        ⟨s,
          { reason := some (internalError
              (cmdName ++ " " ++ String.intercalate " " cmdArgs) none none),
            reject := true },
          none⟩
    | .ok bodyContent =>
        ⟨s, s.run cmdName cmdArgs (serializeHeader hdr ++ bodyContent) env,
          some (cmdName, cmdArgs)⟩

/-! ## Transaction event sequences -/

/-- One host-originated transaction event, paired with the environment the
child-process invocation would observe if this event triggers one. -/
inductive Event where
  | conn (env : RunEnv)
  | sender (addr : String) (env : RunEnv)
  | rcpt (addr : String) (env : RunEnv)
  | body (hdr : List (String × String)) (b : Buffer) (env : RunEnv)

/-- The stage a given event belongs to. -/
def eventStage : Event → String
  | .conn _ => StageConnection
  | .sender _ _ => StageSender
  | .rcpt _ _ => StageRcpt
  | .body _ _ _ => StageBody

/-- Dispatch one event to the corresponding stage method. -/
def stepEvent (s : state) : Event → StepResult
  | .conn env => s.CheckConnection env
  | .sender addr env => s.CheckSender addr env
  | .rcpt addr env => s.CheckRcpt addr env
  | .body hdr b env => s.CheckBody hdr b env

/-- Number of external invocations performed over a sequence of events. -/
def spawnCount (s : state) : List Event → Nat
  | [] => 0
  | ev :: rest =>
      let out := stepEvent s ev
      (if out.invoked.isSome then 1 else 0) + spawnCount out.st rest

/-! ## Lemmas about the placeholder scanner -/

/-- The placeholder names handled by the `switch` in `expandCommand`. -/
def placeholderNames : List String :=
  ["auth_user", "source_ip", "source_host", "source_rdns", "msg_id", "sender",
   "rcpts", "address"]

theorem expandChars_nil (f : String → String) : expandChars f [] = [] := rfl

theorem expandChars_cons_of_ne (f : String → String) {c : Char} (hc : c ≠ '{')
    (rest : List Char) : expandChars f (c :: rest) = c :: expandChars f rest := by
  show expandCharsGo f (rest.length + 1) (c :: rest) = c :: expandChars f rest
  simp only [expandCharsGo, if_neg hc]
  rfl

theorem expandChars_tok (f : String → String) {rest w rest' : List Char}
    (h : splitTok rest = some (w, rest')) :
    expandChars f ('{' :: rest) =
      (f (obrace ++ String.mk w ++ cbrace)).data ++ expandChars f rest' := by
  have hlt : rest'.length < rest.length := splitTok_length h
  show expandCharsGo f (rest.length + 1) ('{' :: rest) = _
  simp only [expandCharsGo, h, if_pos rfl]
  rw [expandCharsGo_fuel f rest.length rest' (by omega)]
  rfl

theorem takeWhile_append_of_all {p : Char → Bool} {w : List Char}
    (hall : ∀ c ∈ w, p c = true) {c : Char} (hc : p c = false) (rest : List Char) :
    (w ++ c :: rest).takeWhile p = w := by
  induction w with
  | nil => simp [List.takeWhile_cons, hc]
  | cons a w ih =>
      simp [List.takeWhile_cons, hall a (by simp),
        ih (fun d hd => hall d (by simp [hd]))]

theorem dropWhile_append_of_all {p : Char → Bool} {w : List Char}
    (hall : ∀ c ∈ w, p c = true) {c : Char} (hc : p c = false) (rest : List Char) :
    (w ++ c :: rest).dropWhile p = c :: rest := by
  induction w with
  | nil => simp [List.dropWhile_cons, hc]
  | cons a w ih =>
      simp [List.dropWhile_cons, hall a (by simp),
        ih (fun d hd => hall d (by simp [hd]))]

theorem splitTok_word {w : List Char} (hw : w ≠ [])
    (hall : ∀ c ∈ w, isWordChar c = true) (rest : List Char) :
    splitTok (w ++ '}' :: rest) = some (w, rest) := by
  have hbr : isWordChar '}' = false := by decide
  unfold splitTok
  rw [takeWhile_append_of_all hall hbr, dropWhile_append_of_all hall hbr]
  simp [hw]

theorem expandChars_word_tok (f : String → String) {w : List Char} (hw : w ≠ [])
    (hall : ∀ c ∈ w, isWordChar c = true) (rest : List Char) :
    expandChars f ('{' :: (w ++ '}' :: rest)) =
      (f (obrace ++ String.mk w ++ cbrace)).data ++ expandChars f rest :=
  expandChars_tok f (splitTok_word hw hall rest)

theorem expandChars_append_of_no_brace (f : String → String) {cs : List Char}
    (h : ∀ c ∈ cs, c ≠ '{') (tail : List Char) :
    expandChars f (cs ++ tail) = cs ++ expandChars f tail := by
  induction cs with
  | nil => simp
  | cons c cs ih =>
      rw [List.cons_append, expandChars_cons_of_ne f (h c (by simp)),
        ih (fun d hd => h d (by simp [hd])), List.cons_append]

/-- Wrapping a name in braces is injective. -/
theorem token_eq_iff {v w : String} :
    (obrace ++ v ++ cbrace : String) = obrace ++ w ++ cbrace ↔ v = w := by
  constructor
  · intro h
    have hd := congrArg String.data h
    simp only [String.data_append] at hd
    have hd2 : v.data = w.data := by
      have h3 : v.data ++ ['}'] = w.data ++ ['}'] := by simpa using hd
      exact (List.append_left_inj ['}']).mp h3
    exact String.ext hd2
  · intro h
    rw [h]

/-- The `default` branch of the `switch`: an unrecognized placeholder is returned
unchanged (command.go line 180). -/
theorem resolve_unrecognized (s : state) (address : String) {w : String}
    (h : w ∉ placeholderNames) :
    resolvePlaceholder s address (obrace ++ w ++ cbrace) = obrace ++ w ++ cbrace := by
  have key : ∀ n : String, n ∈ placeholderNames →
      (obrace ++ w ++ cbrace : String) ≠ obrace ++ n ++ cbrace := by
    intro n hn hc
    exact h (token_eq_iff.mp hc ▸ hn)
  have k1 : (obrace ++ w ++ cbrace : String) ≠ "{auth_user}" :=
    key "auth_user" (by simp [placeholderNames])
  have k2 : (obrace ++ w ++ cbrace : String) ≠ "{source_ip}" :=
    key "source_ip" (by simp [placeholderNames])
  have k3 : (obrace ++ w ++ cbrace : String) ≠ "{source_host}" :=
    key "source_host" (by simp [placeholderNames])
  have k4 : (obrace ++ w ++ cbrace : String) ≠ "{source_rdns}" :=
    key "source_rdns" (by simp [placeholderNames])
  have k5 : (obrace ++ w ++ cbrace : String) ≠ "{msg_id}" :=
    key "msg_id" (by simp [placeholderNames])
  have k6 : (obrace ++ w ++ cbrace : String) ≠ "{sender}" :=
    key "sender" (by simp [placeholderNames])
  have k7 : (obrace ++ w ++ cbrace : String) ≠ "{rcpts}" :=
    key "rcpts" (by simp [placeholderNames])
  have k8 : (obrace ++ w ++ cbrace : String) ≠ "{address}" :=
    key "address" (by simp [placeholderNames])
  unfold resolvePlaceholder
  rw [if_neg k1, if_neg k2, if_neg k3, if_neg k4, if_neg k5, if_neg k6,
    if_neg k7, if_neg k8]

theorem resolve_msg_id (s : state) (address : String) :
    resolvePlaceholder s address "{msg_id}" = s.msgMeta.id := rfl

theorem resolve_sender (s : state) (address : String) :
    resolvePlaceholder s address "{sender}" = s.mailFrom := rfl

theorem resolve_rcpts (s : state) (address : String) :
    resolvePlaceholder s address "{rcpts}" = String.intercalate "\n" s.rcpts := rfl

/-! ## Helper lemmas about the stage methods -/

/-- Every stage method leaves the shared configuration untouched. -/
theorem stepEvent_c (s : state) (ev : Event) : (stepEvent s ev).st.c = s.c := by
  cases ev with
  | conn env =>
      simp only [stepEvent, state.CheckConnection, state.expandCommand]
      split <;> rfl
  | sender addr env =>
      simp only [stepEvent, state.CheckSender, state.expandCommand]
      split <;> rfl
  | rcpt addr env =>
      simp only [stepEvent, state.CheckRcpt, state.expandCommand]
      split <;> rfl
  | body hdr b env =>
      simp only [stepEvent, state.CheckBody, state.expandCommand]
      split
      · rfl
      · split <;> rfl

/-- A stage method only reaches `run` when its stage is the configured trigger
stage. -/
theorem stepEvent_invoked_stage (s : state) (ev : Event)
    (h : (stepEvent s ev).invoked.isSome = true) : eventStage ev = s.c.stage := by
  cases ev with
  | conn env =>
      simp only [stepEvent, state.CheckConnection, state.expandCommand] at h
      by_cases hs : s.c.stage = StageConnection
      · simp [eventStage, hs]
      · rw [if_pos (by simpa using hs)] at h
        simp at h
  | sender addr env =>
      simp only [stepEvent, state.CheckSender, state.expandCommand] at h
      by_cases hs : s.c.stage = StageSender
      · simp [eventStage, hs]
      · rw [if_pos (by simpa using hs)] at h
        simp at h
  | rcpt addr env =>
      simp only [stepEvent, state.CheckRcpt, state.expandCommand] at h
      by_cases hs : s.c.stage = StageRcpt
      · simp [eventStage, hs]
      · rw [if_pos (by simpa using hs)] at h
        simp at h
  | body hdr b env =>
      simp only [stepEvent, state.CheckBody, state.expandCommand] at h
      by_cases hs : s.c.stage = StageBody
      · simp [eventStage, hs]
      · rw [if_pos (by simpa using hs)] at h
        simp at h

/-- Over any event sequence, the number of external invocations is bounded by the
number of events whose stage matches the configured trigger stage. -/
theorem spawnCount_le_matching (s : state) (evs : List Event) :
    spawnCount s evs ≤ evs.countP (fun e => eventStage e == s.c.stage) := by
  induction evs generalizing s with
  | nil => simp [spawnCount]
  | cons e rest ih =>
      have hc := stepEvent_c s e
      have hmono := ih (stepEvent s e).st
      rw [hc] at hmono
      simp only [spawnCount, List.countP_cons]
      by_cases hi : (stepEvent s e).invoked.isSome = true
      · have hst := stepEvent_invoked_stage s e hi
        simp only [hi, if_true, hst, beq_self_eq_true]
        omega
      · simp only [hi, if_false]
        by_cases hm : (eventStage e == s.c.stage) = true <;> simp [hm] <;> omega

/-- The empty decision returned on every non-triggering path. -/
theorem stepEvent_nonmatching (s : state) (ev : Event)
    (h : eventStage ev ≠ s.c.stage) :
    (stepEvent s ev).res = {} ∧ (stepEvent s ev).invoked = none := by
  cases ev with
  | conn env =>
      have hne : s.c.stage ≠ StageConnection := fun hc => h (by simp [eventStage, hc])
      simp [stepEvent, state.CheckConnection, hne]
  | sender addr env =>
      have hne : s.c.stage ≠ StageSender := fun hc => h (by simp [eventStage, hc])
      simp [stepEvent, state.CheckSender, hne]
  | rcpt addr env =>
      have hne : s.c.stage ≠ StageRcpt := fun hc => h (by simp [eventStage, hc])
      simp [stepEvent, state.CheckRcpt, hne]
  | body hdr b env =>
      have hne : s.c.stage ≠ StageBody := fun hc => h (by simp [eventStage, hc])
      simp [stepEvent, state.CheckBody, hne]

/-- Header preservation by the classifier, shared by several results below. -/
theorem errorRes_header (s : state) (err : WaitError) (res : CheckResult)
    (cmdLine : String) : (s.errorRes err res cmdLine).header = res.header := by
  cases err with
  | other => simp [state.errorRes]
  | exitError n =>
      cases h : s.c.actions.lookup n with
      | none => simp [state.errorRes, h]
      | some a =>
          simp only [state.errorRes, h, FailAction.Apply]
          split_ifs <;> rfl

/-! ## Example fixtures used by witnesses and counterexamples -/

/-- A connection with every piece of metadata available. -/
def exMeta : MsgMetadata :=
  { id := "m1",
    conn := some { authUser := "alice", remoteIP := some "192.0.2.1",
                   hostname := "client.example", rdnsName := "mx.example.org" } }

/-- A configuration with the default action table. -/
def exCheck (stage : String) (args : List String) : Check :=
  { instName := "i", stage := stage, actions := defaultActions,
    cmd := "checker", cmdArgs := args }

/-- A fresh transaction state over `exCheck`. -/
def exState (stage : String) (args : List String) : state :=
  { c := exCheck stage args, msgMeta := exMeta }

/-! ## The claims -/

/-- C1, counterexample. The claim says the invocation made for the N-th recipient
uses a recipient sequence that does not yet include that recipient, so with
template `["{rcpts}"]` the first recipient's invocation would receive the
argument `""`. The code appends the recipient before expanding
(command.go line 318 runs before line 324), so the first invocation already
receives `"a@x.test"`. -/
theorem c1_counterexample :
    ((exState StageRcpt ["{rcpts}"]).CheckRcpt "a@x.test" {}).invoked =
        some ("checker", ["a@x.test"]) ∧
    ((exState StageRcpt ["{rcpts}"]).CheckRcpt "a@x.test" {}).invoked ≠
        some ("checker", [""]) := by
  decide

/-- C1, amended: when the trigger stage is `rcpt`, the invocation made for a
recipient expands the template over the recipient sequence extended with that
recipient — `{rcpts}` expands to the newline-joined recipients recorded up to
and including the current event, since the address is appended before the
expansion. -/
theorem c1_rcpts_include_current (s : state) (addr : String) (env : RunEnv)
    (h : s.c.stage = StageRcpt) :
    (s.CheckRcpt addr env).invoked =
      some (s.c.cmd,
        s.c.cmdArgs.map (expandArg { s with rcpts := s.rcpts ++ [addr] } addr)) ∧
    expandArg { s with rcpts := s.rcpts ++ [addr] } addr "{rcpts}" =
      String.intercalate "\n" (s.rcpts ++ [addr]) := by
  constructor
  · simp [state.CheckRcpt, state.expandCommand, h]
  · unfold expandArg
    rw [show ("{rcpts}" : String).data = '{' :: ("rcpts".data ++ '}' :: []) from rfl]
    rw [expandChars_word_tok _ (by decide) (by decide)]
    rw [expandChars_nil]
    simp only [List.append_nil]
    rfl

/-- C1, witness for the amended theorem at a concrete input. -/
theorem c1_rcpts_include_current_witness :
    ((exState StageRcpt ["{rcpts}"]).CheckRcpt "b@x.test" {}).invoked =
      some ((exState StageRcpt ["{rcpts}"]).c.cmd,
        (exState StageRcpt ["{rcpts}"]).c.cmdArgs.map
          (expandArg { exState StageRcpt ["{rcpts}"] with
            rcpts := (exState StageRcpt ["{rcpts}"]).rcpts ++ ["b@x.test"] } "b@x.test")) ∧
    expandArg { exState StageRcpt ["{rcpts}"] with
        rcpts := (exState StageRcpt ["{rcpts}"]).rcpts ++ ["b@x.test"] } "b@x.test"
        "{rcpts}" =
      String.intercalate "\n" ((exState StageRcpt ["{rcpts}"]).rcpts ++ ["b@x.test"]) :=
  c1_rcpts_include_current (exState StageRcpt ["{rcpts}"]) "b@x.test" {} (by decide)

/-- C2, counterexample. A child terminated by a signal is reported by Go's
`os/exec` as an `*exec.ExitError` whose `ExitCode()` is `-1`, so `errorRes`
looks `-1` up in the configured table (command.go line 266) — it does not reach
the not-an-ExitError infrastructure branch. With a table configured as
`code -1 quarantine` (accepted by `Init`, since `strconv.Atoi` parses `-1`),
the table entry is applied: the decision is a quarantine carrying the permanent
550 policy error, not the temporary 450 infrastructure-failure outcome the
claim requires for every configured table. -/
theorem c2_counterexample :
    (state.errorRes
        { c := { instName := "i", stage := StageBody,
                 actions := defaultActions ++ [(-1, { quarantine := true })],
                 cmd := "checker", cmdArgs := [] },
          msgMeta := exMeta }
        (.exitError (-1)) {} "checker").quarantine = true ∧
    (state.errorRes
        { c := { instName := "i", stage := StageBody,
                 actions := defaultActions ++ [(-1, { quarantine := true })],
                 cmd := "checker", cmdArgs := [] },
          msgMeta := exMeta }
        (.exitError (-1)) {} "checker").reject = false ∧
    (state.errorRes
        { c := { instName := "i", stage := StageBody,
                 actions := defaultActions ++ [(-1, { quarantine := true })],
                 cmd := "checker", cmdArgs := [] },
          msgMeta := exMeta }
        (.exitError (-1)) {} "checker").reason =
      some (policyError "checker" (-1)) := by
  decide

/-- C2, amended: the returned decision is the temporary infrastructure-failure
rejection (code 450, internal-error message, carrying the command line, leaving
the quarantine flag alone) whenever the wait error is not an `ExitError` at
all, or it reports a signal-killed child (exit code `-1`) and the configured
table has no entry for `-1` — in particular for the default table. A
configured entry for `-1` is, however, applied to a signal-killed child. -/
theorem c2_abnormal_infrastructure (s : state) (err : WaitError)
    (res : CheckResult) (cmdLine : String)
    (h : err = .other ∨
      (err = .exitError (-1) ∧ s.c.actions.lookup (-1) = none)) :
    (s.errorRes err res cmdLine).reject = true ∧
    (s.errorRes err res cmdLine).quarantine = res.quarantine ∧
    ∃ e : SMTPError, (s.errorRes err res cmdLine).reason = some e ∧
      e.code = 450 ∧ e.message = "Internal server error" ∧ e.cmd = cmdLine := by
  rcases h with h | ⟨h1, h2⟩
  · subst h
    refine ⟨rfl, rfl, internalError cmdLine none none, rfl, rfl, rfl, rfl⟩
  · subst h1
    simp [state.errorRes, h2, internalError]

/-- C2, witness for the amended theorem: the default table has no entry for `-1`,
so a signal-killed child yields the temporary 450 rejection. -/
theorem c2_abnormal_infrastructure_witness :
    ((exState StageBody []).errorRes (.exitError (-1)) {} "checker").reject = true ∧
    ((exState StageBody []).errorRes (.exitError (-1)) {} "checker").quarantine =
      (({} : CheckResult)).quarantine ∧
    ∃ e : SMTPError,
      ((exState StageBody []).errorRes (.exitError (-1)) {} "checker").reason = some e ∧
      e.code = 450 ∧ e.message = "Internal server error" ∧ e.cmd = "checker" :=
  c2_abnormal_infrastructure (exState StageBody []) (.exitError (-1)) {} "checker"
    (Or.inr ⟨rfl, by decide⟩)

/-- C3: the claim says `{source_rdns}` expands to the resolved reverse-DNS name
when one is available, and to the empty string only when it is unavailable. In
the code both branches of the final check return `""` (command.go lines
166-170), so the expansion is the empty string even for a state whose
connection carries the reverse-DNS name `mx.example.org`; the dead
`if val == ""` test shows the empty result on the available side is a slip,
contradicting the intended, documented behaviour. -/
theorem c3_source_rdns_always_empty :
    expandArg (exState StageBody ["{source_rdns}"]) "" "{source_rdns}" = "" ∧
    (exState StageBody ["{source_rdns}"]).msgMeta.conn ≠ none ∧
    ((exState StageBody ["{source_rdns}"]).msgMeta.conn.map
      (fun conn => conn.rdnsName)) = some "mx.example.org" := by
  decide

/-- C4: a nonzero exit code with no entry in the configured table yields the
temporary 450 rejection tagged "unexpected exit code", carrying the command
line and the observed exit code — a reject, with a 4xx code, never the 550
permanent rejection and never a pass-through. -/
theorem c4_unmapped_code_temp_reject (s : state) (res : CheckResult)
    (cmdLine : String) (n : Int) (hn : n ≠ 0)
    (h : s.c.actions.lookup n = none) :
    s.errorRes (.exitError n) res cmdLine =
      { res with
          reason := some (internalError cmdLine (some "unexpected exit code")
            (some n)),
          reject := true } ∧
    (s.errorRes (.exitError n) res cmdLine).reject = true ∧
    (internalError cmdLine (some "unexpected exit code") (some n)).code = 450 := by
  refine ⟨?_, ?_, rfl⟩ <;> simp [state.errorRes, h]

/-- C4, witness: exit code 7 has no entry in the default table. -/
theorem c4_unmapped_code_temp_reject_witness :
    (exState StageBody []).errorRes (.exitError 7) {} "checker" =
      { reason := some (internalError "checker" (some "unexpected exit code")
          (some 7)),
        reject := true } ∧
    ((exState StageBody []).errorRes (.exitError 7) {} "checker").reject = true ∧
    (internalError "checker" (some "unexpected exit code") (some 7)).code = 450 :=
  c4_unmapped_code_temp_reject (exState StageBody []) {} "checker" 7 (by decide)
    (by decide)

/-- C5: `New` always seeds the table with `{1 → reject, 2 → quarantine}`, and
under that default table a child exiting 1 yields the permanent rejection
(550, enhanced code 5.7.1, the standard local-policy message, carrying command
line and exit code) while a child exiting 2 yields a quarantine rather than a
rejection, carrying the same policy error. -/
theorem c5_default_actions_classify (s : state) (res : CheckResult)
    (cmdLine : String) (h : s.c.actions = defaultActions) :
    (∀ (instName cmdName : String) (args : List String) (c : Check),
      New instName (cmdName :: args) = .ok c → c.actions = defaultActions) ∧
    s.errorRes (.exitError 1) res cmdLine =
      { res with reason := some (policyError cmdLine 1), reject := true } ∧
    s.errorRes (.exitError 2) res cmdLine =
      { res with
          reason := some (policyError cmdLine 2),
          quarantine := true, reject := false } := by
  refine ⟨?_, ?_, ?_⟩
  · intro instName cmdName args c hNew
    simp only [New, Except.ok.injEq] at hNew
    rw [← hNew]
  · simp [state.errorRes, h, defaultActions, FailAction.Apply, policyError,
      List.lookup]
  · simp [state.errorRes, h, defaultActions, FailAction.Apply, policyError,
      List.lookup]

/-- C5, witness at the default table. -/
theorem c5_default_actions_classify_witness :
    (∀ (instName cmdName : String) (args : List String) (c : Check),
      New instName (cmdName :: args) = .ok c → c.actions = defaultActions) ∧
    (exState StageBody []).errorRes (.exitError 1) {} "checker" =
      { reason := some (policyError "checker" 1), reject := true } ∧
    (exState StageBody []).errorRes (.exitError 2) {} "checker" =
      { reason := some (policyError "checker" 2),
        quarantine := true, reject := false } := by
  simpa using
    c5_default_actions_classify (exState StageBody []) {} "checker" (by decide)

/-- C6: whatever the configured action table, when the pipe and start succeed,
the header parse does not fail, and `Wait` returns no error (exit status 0),
`run` returns the pass-through decision carrying exactly the parsed header —
no rejection, no quarantine, no error payload; and when the child wrote no
output at all, the tolerated early end-of-stream yields pass-through with no
headers attached. -/
theorem c6_exit_zero_pass (s : state) (cmdName : String) (args : List String)
    (stdin : List String) (env : RunEnv)
    (hp : env.pipeErr = false) (hst : env.startErr = false)
    (hparse : (readHeader env.stdout).2 ≠ .malformed) (hw : env.wait = none) :
    s.run cmdName args stdin env =
      { reason := none, reject := false, quarantine := false,
        header := (readHeader env.stdout).1 } ∧
    (env.stdout = [] →
      s.run cmdName args stdin env =
        { reason := none, reject := false, quarantine := false, header := [] }) := by
  constructor
  · simp [state.run, hp, hst, hparse, hw]
  · intro h0
    simp [state.run, hp, hst, hparse, hw, h0, readHeader]

/-- C6, witness: a child that writes nothing and exits 0, under a table that even
maps code 0. -/
theorem c6_exit_zero_pass_witness :
    (let s : state :=
      { c := { instName := "i", stage := StageBody,
               actions := defaultActions ++ [(0, { reject := true })],
               cmd := "checker", cmdArgs := [] },
        msgMeta := exMeta }
    s.run "checker" [] [] {} =
      { reason := none, reject := false, quarantine := false,
        header := (readHeader ([] : List String)).1 } ∧
    (([] : List String) = [] →
      s.run "checker" [] [] {} =
        { reason := none, reject := false, quarantine := false, header := [] })) :=
  c6_exit_zero_pass
    { c := { instName := "i", stage := StageBody,
             actions := defaultActions ++ [(0, { reject := true })],
             cmd := "checker", cmdArgs := [] },
      msgMeta := exMeta }
    "checker" [] [] {} rfl rfl (by decide) rfl

/-- C7, counterexample. The claim says the external check fires at most once per
transaction. With the trigger stage `rcpt` and two recipient events, the check
fires once per recipient: two invocations in one transaction. -/
theorem c7_counterexample :
    spawnCount (exState StageRcpt ["-a", "{address}"])
      [.rcpt "a@x.test" {}, .rcpt "b@x.test" {}] = 2 := by
  decide

/-- C7, amended: any stage method whose stage differs from the configured trigger
stage returns the empty decision and performs no invocation, and over any event
sequence the number of invocations is bounded by the number of events of the
configured stage — so the check fires only at the configured stage: at most
once per matching event (hence at most once per transaction for the `conn`,
`sender` and `body` stages, and once per recipient for `rcpt`). -/
theorem c7_stage_gating (s : state) (ev : Event) (evs : List Event)
    (h : eventStage ev ≠ s.c.stage) :
    (stepEvent s ev).res = {} ∧ (stepEvent s ev).invoked = none ∧
    spawnCount s evs ≤ evs.countP (fun e => eventStage e == s.c.stage) := by
  obtain ⟨h1, h2⟩ := stepEvent_nonmatching s ev h
  exact ⟨h1, h2, spawnCount_le_matching s evs⟩

/-- C7, witness: a sender event under the `rcpt` trigger stage is pure
bookkeeping, and a mixed event sequence spawns at most as many processes as it
has `rcpt` events. -/
theorem c7_stage_gating_witness :
    (stepEvent (exState StageRcpt ["-a"]) (.sender "s@x.test" {})).res = {} ∧
    (stepEvent (exState StageRcpt ["-a"]) (.sender "s@x.test" {})).invoked = none ∧
    spawnCount (exState StageRcpt ["-a"])
        [.sender "s@x.test" {}, .rcpt "a@x.test" {}] ≤
      List.countP (fun e => eventStage e == (exState StageRcpt ["-a"]).c.stage)
        [.sender "s@x.test" {}, .rcpt "a@x.test" {}] :=
  c7_stage_gating (exState StageRcpt ["-a"]) (.sender "s@x.test" {})
    [.sender "s@x.test" {}, .rcpt "a@x.test" {}] (by decide)

/-- C8: in any argument template built from brace-free text around one bracketed
word token that is not a recognized placeholder and the recognized tokens
`{msg_id}` and `{sender}`, expansion leaves the unrecognized token byte-for-byte
unchanged while replacing each recognized token occurrence with its resolved
value. -/
theorem c8_unknown_token_verbatim (s : state) (address : String)
    (pre mid post : String) (w : List Char)
    (hpre : ∀ c ∈ pre.data, c ≠ '{') (hmid : ∀ c ∈ mid.data, c ≠ '{')
    (hpost : ∀ c ∈ post.data, c ≠ '{')
    (hw : w ≠ []) (hwall : ∀ c ∈ w, isWordChar c = true)
    (hname : String.mk w ∉ placeholderNames) :
    expandArg s address
        (pre ++ obrace ++ String.mk w ++ cbrace ++ mid ++ "{msg_id}" ++ "{sender}" ++ post) =
      pre ++ obrace ++ String.mk w ++ cbrace ++ mid ++ s.msgMeta.id ++ s.mailFrom ++ post := by
  apply String.ext
  show expandChars (resolvePlaceholder s address)
      (pre ++ obrace ++ String.mk w ++ cbrace ++ mid ++ "{msg_id}" ++ "{sender}" ++ post).data
    = (pre ++ obrace ++ String.mk w ++ cbrace ++ mid ++ s.msgMeta.id ++ s.mailFrom ++ post).data
  have r1 : resolvePlaceholder s address
      (obrace ++ String.mk ['m', 's', 'g', '_', 'i', 'd'] ++ cbrace) = s.msgMeta.id := rfl
  have r2 : resolvePlaceholder s address
      (obrace ++ String.mk ['s', 'e', 'n', 'd', 'e', 'r'] ++ cbrace) = s.mailFrom := rfl
  have hpost' : expandChars (resolvePlaceholder s address) post.data = post.data := by
    have hskip := expandChars_append_of_no_brace (resolvePlaceholder s address) hpost []
    simpa [expandChars_nil] using hskip
  simp only [String.data_append,
    show (obrace : String).data = ['{'] from rfl,
    show (cbrace : String).data = ['}'] from rfl,
    show (String.mk w).data = w from rfl,
    show ("{msg_id}" : String).data = ['{', 'm', 's', 'g', '_', 'i', 'd', '}'] from rfl,
    show ("{sender}" : String).data = ['{', 's', 'e', 'n', 'd', 'e', 'r', '}'] from rfl,
    List.append_assoc, List.cons_append, List.singleton_append, List.nil_append]
  rw [expandChars_append_of_no_brace _ hpre]
  rw [show ('{' :: 'm' :: 's' :: 'g' :: '_' :: 'i' :: 'd' :: '}' :: '{' :: 's' ::
        'e' :: 'n' :: 'd' :: 'e' :: 'r' :: '}' :: post.data : List Char) =
      '{' :: (['m', 's', 'g', '_', 'i', 'd'] ++ '}' ::
        ('{' :: (['s', 'e', 'n', 'd', 'e', 'r'] ++ '}' :: post.data))) from rfl]
  rw [expandChars_word_tok _ hw hwall]
  rw [resolve_unrecognized s address hname]
  rw [expandChars_append_of_no_brace _ hmid]
  rw [expandChars_word_tok _ (by decide) (by decide)]
  rw [r1]
  rw [expandChars_word_tok _ (by decide) (by decide)]
  rw [r2]
  rw [hpost']
  simp [String.data_append, List.append_assoc,
    show (obrace : String).data = ['{'] from rfl,
    show (cbrace : String).data = ['}'] from rfl]

/-- C8, witness at concrete surrounding text and the unrecognized token
`{foo}`. -/
theorem c8_unknown_token_verbatim_witness :
    expandArg (exState StageBody []) "cur"
        ("a-" ++ obrace ++ String.mk ['f', 'o', 'o'] ++ cbrace ++ "_" ++ "{msg_id}" ++
          "{sender}" ++ ".x") =
      "a-" ++ obrace ++ String.mk ['f', 'o', 'o'] ++ cbrace ++ "_" ++
        (exState StageBody []).msgMeta.id ++ (exState StageBody []).mailFrom ++ ".x" :=
  c8_unknown_token_verbatim (exState StageBody []) "cur" "a-" "_" ".x"
    ['f', 'o', 'o'] (by decide) (by decide) (by decide) (by decide) (by decide)
    (by decide)

/-- C9: when the trigger stage is `body` and opening the body buffer fails, the
body stage method returns the temporary 450 internal-error rejection carrying
the command line, and performs no invocation of the external command. -/
theorem c9_body_open_failure (s : state) (hdr : List (String × String))
    (msg : String) (env : RunEnv) (h : s.c.stage = StageBody) :
    (s.CheckBody hdr { openResult := .error msg } env).res =
      { reason := some (internalError
          (s.c.cmd ++ " " ++ String.intercalate " "
            (s.c.cmdArgs.map (expandArg s ""))) none none),
        reject := true } ∧
    (s.CheckBody hdr { openResult := .error msg } env).invoked = none := by
  constructor <;> simp [state.CheckBody, state.expandCommand, h]

/-- C9, witness at a concrete failing body buffer. -/
theorem c9_body_open_failure_witness :
    ((exState StageBody ["-v"]).CheckBody [("Subject", "hi")]
        { openResult := .error "io" } {}).res =
      { reason := some (internalError
          ((exState StageBody ["-v"]).c.cmd ++ " " ++ String.intercalate " "
            ((exState StageBody ["-v"]).c.cmdArgs.map
              (expandArg (exState StageBody ["-v"]) ""))) none none),
        reject := true } ∧
    ((exState StageBody ["-v"]).CheckBody [("Subject", "hi")]
        { openResult := .error "io" } {}).invoked = none :=
  c9_body_open_failure (exState StageBody ["-v"]) [("Subject", "hi")] "io" {}
    (by decide)

/-- C10: when the leading header block was parsed (no malformed-header failure)
but the child then terminates unsuccessfully, the decision returned by `run`
still carries the parsed header fields, because the whole classification in
`errorRes` — non-ExitError, unmapped code, and every configured action — leaves
the header field of the result unchanged. -/
theorem c10_header_preserved (s : state) (cmdName : String) (args : List String)
    (stdin : List String) (env : RunEnv) (err : WaitError)
    (hp : env.pipeErr = false) (hst : env.startErr = false)
    (hparse : (readHeader env.stdout).2 ≠ .malformed)
    (hw : env.wait = some err) :
    (s.run cmdName args stdin env).header = (readHeader env.stdout).1 ∧
    ∀ (res : CheckResult) (cmdLine : String),
      (s.errorRes err res cmdLine).header = res.header := by
  constructor
  · simp [state.run, hp, hst, hparse, hw, errorRes_header]
  · intro res cmdLine
    exact errorRes_header s err res cmdLine

/-- C10, witness: a child that prints one header field and exits with the
unmapped code 9. -/
theorem c10_header_preserved_witness :
    ((exState StageBody []).run "checker" [] []
        { stdout := ["X-Checked: yes", ""], wait := some (.exitError 9) }).header =
      (readHeader ["X-Checked: yes", ""]).1 ∧
    ∀ (res : CheckResult) (cmdLine : String),
      ((exState StageBody []).errorRes (.exitError 9) res cmdLine).header =
        res.header :=
  c10_header_preserved (exState StageBody []) "checker" [] []
    { stdout := ["X-Checked: yes", ""], wait := some (.exitError 9) }
    (.exitError 9) rfl rfl (by decide) rfl

end Command
